import Mathlib

/-!
# Mission state machine and objective tracking

A shallow embedding of `Modular/MissionData.h` (the enum `EMissionState`, the structs
`FMissionObjective` and `FMissionData` with their member functions) and of
`Modular/MissionComponent.cpp` (the member functions of `UMissionComponent`).

Conventions of the embedding:

* `int32` values are integers. The embedded functions only compare and copy them (the one
  increment, in `GetCompletedObjectiveCount`, is bounded by the array length), so no
  operation can overflow and no reduction modulo `2^32` is needed.
* `TArray<T>` is `List T`; an `int32` index `i` addresses position `i.toNat` once
  `IsValidIndex` has accepted it.
* `FString` and `FName` are `String`.
* A member function that mutates `this` is a function from the old value to the new one.
* The objective members the functions name `Progress`, `Target` and `Goal` are the declared
  `CurrentCount` (for `Progress`) and `TargetCount` (for `Target` and `Goal`); the doc
  comments quote the statements of the source with the names it uses.
* `UE_LOG(LogTemp, Warning, ...)` is an output: the list of warnings a call has emitted.
-/

/-! ## Engine primitives used by the source -/

/-- The engine template `FMath::Clamp(X, Min, Max)`: `X < Min ? Min : X < Max ? X : Max`. -/
def FMath.Clamp (X Min Max : Int) : Int :=
  if X < Min then Min else if X < Max then X else Max

/-- The engine member `TArray::IsValidIndex(Index)`: `Index >= 0 && Index < ArrayNum`. -/
def TArray.IsValidIndex {α : Type} (Array : List α) (Index : Int) : Bool :=
  decide (Index ≥ 0) && decide (Index < (Array.length : Int))

/-- A warning written to the `LogTemp` category by `UE_LOG`. -/
inductive LogTempWarning where
  /-- The line "UpdateObjectiveProgress: Invalid ObjectiveIndex %d" with its argument. -/
  | InvalidObjectiveIndex (ObjectiveIndex : Int)
  deriving DecidableEq, Repr

/-! ## `MissionData.h` -/

/-- The enum `EMissionState`. -/
inductive EMissionState where
  | NotStarted
  | InProgress
  | Completed
  | Failed
  deriving DecidableEq, Repr

/-- Modelled from the spec: the reading of the names `Progress`, `Target` and `Goal`.
The struct `FMissionObjective` declares the members `Description`, `bIsCompleted`,
`CurrentCount` and `TargetCount`, with their default member initialisers, and no others.
`UMissionComponent::UpdateObjectiveProgress` names `Progress` and `Target`, and
`FMissionData::UpdateObjectiveProgress` names `Progress` and `Goal`. The data model has one
progress counter and one target per objective, so these names are read as the declared
counters: `Progress` is `CurrentCount`, and `Target` and `Goal` are `TargetCount`. -/
structure FMissionObjective where
  Description : String := ""
  bIsCompleted : Bool := false
  CurrentCount : Int := 0
  TargetCount : Int := 1
  deriving DecidableEq, Repr

/-- The member `FMissionObjective::Reset`: `bIsCompleted = false; CurrentCount = 0;`. -/
def FMissionObjective.Reset (Obj : FMissionObjective) : FMissionObjective :=
  { Obj with bIsCompleted := false, CurrentCount := 0 }

/-- The struct `FMissionData`. -/
structure FMissionData where
  State : EMissionState := EMissionState.NotStarted
  MissionID : String := ""
  Title : String := ""
  Description : String := ""
  Objectives : List FMissionObjective := []
  ExperienceReward : Int := 0
  CurrencyReward : Int := 0
  deriving DecidableEq, Repr

namespace FMissionData

/-- The member `FMissionData::ResetMission`: the state becomes `NotStarted` and the
range-for loop calls `Reset` on every objective in place. -/
def ResetMission (m : FMissionData) : FMissionData :=
  { m with State := EMissionState.NotStarted,
           Objectives := m.Objectives.map FMissionObjective.Reset }

/-- The range-for loop of `FMissionData::AreAllObjectivesCompleted`, which returns `false`
at the first objective whose flag is not set and `true` when the range is exhausted. -/
def AreAllObjectivesCompletedLoop : List FMissionObjective → Bool
  | [] => true
  | Obj :: Rest => if !Obj.bIsCompleted then false else AreAllObjectivesCompletedLoop Rest

/-- The member `FMissionData::AreAllObjectivesCompleted`. -/
def AreAllObjectivesCompleted (m : FMissionData) : Bool :=
  AreAllObjectivesCompletedLoop m.Objectives

/-- The member `FMissionData::CompleteMission`: `State = EMissionState::Completed;`. -/
def CompleteMission (m : FMissionData) : FMissionData :=
  { m with State := EMissionState.Completed }

/-- The member `FMissionData::FailMission`: `State = EMissionState::Failed;`. -/
def FailMission (m : FMissionData) : FMissionData :=
  { m with State := EMissionState.Failed }

/-- The member `FMissionData::IsMissionActive`. -/
def IsMissionActive (m : FMissionData) : Bool :=
  decide (m.State = EMissionState.InProgress)

/-- The member `FMissionData::StartMission`. -/
def StartMission (m : FMissionData) : FMissionData :=
  if m.State = EMissionState.NotStarted then
    { m with State := EMissionState.InProgress }
  else m

/-- The two statements `FMissionData::UpdateObjectiveProgress` runs on the addressed
objective: `Progress = NewProgress;` and, when `Progress >= Goal`, `bIsCompleted = true;`. -/
def SetObjectiveProgress (NewProgress : Int) (Objective : FMissionObjective) :
    FMissionObjective :=
  let Objective1 : FMissionObjective := { Objective with CurrentCount := NewProgress }
  if Objective1.CurrentCount ≥ Objective1.TargetCount then
    { Objective1 with bIsCompleted := true }
  else Objective1

/-- The member `FMissionData::UpdateObjectiveProgress`. -/
def UpdateObjectiveProgress (m : FMissionData) (ObjectiveIndex NewProgress : Int) :
    FMissionData :=
  if TArray.IsValidIndex m.Objectives ObjectiveIndex then
    { m with Objectives :=
        m.Objectives.modify (SetObjectiveProgress NewProgress) ObjectiveIndex.toNat }
  else m

/-- The range-for loop of `FMissionData::GetCompletedObjectiveCount`, started with the
running `Count`. -/
def GetCompletedObjectiveCountLoop : List FMissionObjective → Int → Int
  | [], Count => Count
  | Obj :: Rest, Count =>
      GetCompletedObjectiveCountLoop Rest (if Obj.bIsCompleted then Count + 1 else Count)

/-- The member `FMissionData::GetCompletedObjectiveCount`. -/
def GetCompletedObjectiveCount (m : FMissionData) : Int :=
  GetCompletedObjectiveCountLoop m.Objectives 0

/-- The member `FMissionData::GetTotalObjectiveCount`: `Objectives.Num()`. -/
def GetTotalObjectiveCount (m : FMissionData) : Int :=
  (m.Objectives.length : Int)

end FMissionData

/-! ## `MissionComponent.cpp` -/

/-- The class `UMissionComponent`: its one data member is `CurrentMission`. -/
structure UMissionComponent where
  CurrentMission : FMissionData
  deriving DecidableEq, Repr

namespace UMissionComponent

/-- The member `UMissionComponent::StartMission`. -/
def StartMission (c : UMissionComponent) : UMissionComponent :=
  if c.CurrentMission.State = EMissionState.NotStarted then
    { c with CurrentMission := { c.CurrentMission with State := EMissionState.InProgress } }
  else c

/-- The member `UMissionComponent::CompleteMission`. -/
def CompleteMission (c : UMissionComponent) : UMissionComponent :=
  if c.CurrentMission.State = EMissionState.InProgress
      ∧ c.CurrentMission.AreAllObjectivesCompleted = true then
    { c with CurrentMission := { c.CurrentMission with State := EMissionState.Completed } }
  else c

/-- The member `UMissionComponent::FailMission`. -/
def FailMission (c : UMissionComponent) : UMissionComponent :=
  if c.CurrentMission.State = EMissionState.InProgress then
    { c with CurrentMission := { c.CurrentMission with State := EMissionState.Failed } }
  else c

/-- The member `UMissionComponent::ResetMission`: `CurrentMission.ResetMission();`. -/
def ResetMission (c : UMissionComponent) : UMissionComponent :=
  { c with CurrentMission := c.CurrentMission.ResetMission }

/-- The two assignments `UMissionComponent::UpdateObjectiveProgress` makes through the
reference `Objective`: `Progress = FMath::Clamp(NewProgress, 0, Target);` and then
`bIsCompleted = (Progress >= Target);`, which reads the progress just stored. -/
def SetObjectiveProgress (NewProgress : Int) (Objective : FMissionObjective) :
    FMissionObjective :=
  let Objective1 : FMissionObjective :=
    { Objective with CurrentCount := FMath.Clamp NewProgress 0 Objective.TargetCount }
  { Objective1 with
      bIsCompleted := decide (Objective1.CurrentCount ≥ Objective1.TargetCount) }

/-- The member `UMissionComponent::UpdateObjectiveProgress`. The result pairs the component
after the call with the warnings the call wrote to the log. -/
def UpdateObjectiveProgress (c : UMissionComponent) (ObjectiveIndex NewProgress : Int) :
    UMissionComponent × List LogTempWarning :=
  if TArray.IsValidIndex c.CurrentMission.Objectives ObjectiveIndex then
    let c1 : UMissionComponent :=
      { c with CurrentMission := { c.CurrentMission with
          Objectives := c.CurrentMission.Objectives.modify
            (SetObjectiveProgress NewProgress) ObjectiveIndex.toNat } }
    if c1.CurrentMission.AreAllObjectivesCompleted then
      (c1.CompleteMission, [])
    else
      (c1, [])
  else
    (c, [LogTempWarning.InvalidObjectiveIndex ObjectiveIndex])

/-- The member `UMissionComponent::AreAllObjectivesCompleted`. -/
def AreAllObjectivesCompleted (c : UMissionComponent) : Bool :=
  c.CurrentMission.AreAllObjectivesCompleted

/-- The member `UMissionComponent::IsMissionActive`. -/
def IsMissionActive (c : UMissionComponent) : Bool :=
  decide (c.CurrentMission.State = EMissionState.InProgress)

end UMissionComponent

/-! ## Calls and call sequences

The host drives a component by a finite sequence of calls of its mutating members. -/

/-- One call of a mutating member of `UMissionComponent`, with its arguments. -/
inductive MissionCall where
  | StartMission
  | CompleteMission
  | FailMission
  | ResetMission
  | UpdateObjectiveProgress (ObjectiveIndex NewProgress : Int)
  deriving DecidableEq, Repr

namespace UMissionComponent

/-- The component after one call. -/
def Invoke (c : UMissionComponent) : MissionCall → UMissionComponent
  | MissionCall.StartMission => c.StartMission
  | MissionCall.CompleteMission => c.CompleteMission
  | MissionCall.FailMission => c.FailMission
  | MissionCall.ResetMission => c.ResetMission
  | MissionCall.UpdateObjectiveProgress ObjectiveIndex NewProgress =>
      (c.UpdateObjectiveProgress ObjectiveIndex NewProgress).1

/-- The component after a sequence of calls, made from left to right. -/
def InvokeAll (c : UMissionComponent) (Calls : List MissionCall) : UMissionComponent :=
  Calls.foldl Invoke c

end UMissionComponent

/-- The initial mission of the host contract: state `NotStarted`, every objective with
`Target >= 1`, `Progress == 0` and `bIsCompleted == false`. -/
def IsInitialMission (m : FMissionData) : Prop :=
  m.State = EMissionState.NotStarted ∧
    ∀ Obj ∈ m.Objectives,
      1 ≤ Obj.TargetCount ∧ Obj.CurrentCount = 0 ∧ Obj.bIsCompleted = false

instance (m : FMissionData) : Decidable (IsInitialMission m) := by
  unfold IsInitialMission
  exact inferInstance

/-- A mission with the two objectives of the auto-completion scenario (targets 3 and 1),
in the given state. -/
def twoObjectiveMission (State : EMissionState) : FMissionData :=
  { State := State, MissionID := "M1", Title := "Supplies", Description := "Gather and deliver",
    Objectives :=
      [ { Description := "Collect crates", CurrentCount := 0, TargetCount := 3 },
        { Description := "Deliver", CurrentCount := 0, TargetCount := 1 } ],
    ExperienceReward := 100, CurrencyReward := 50 }

/-- The objective an `int32` index addresses: `Objectives[ObjectiveIndex]` when
`Objectives.IsValidIndex(ObjectiveIndex)`, and none otherwise. -/
def FMissionData.ObjectiveAt (m : FMissionData) (ObjectiveIndex : Int) :
    Option FMissionObjective :=
  if TArray.IsValidIndex m.Objectives ObjectiveIndex then
    m.Objectives[ObjectiveIndex.toNat]?
  else none

/-- The calls that take a completed objective away from a `Completed` mission:
`UpdateObjectiveProgress` with a valid index and a new progress below the target of the
addressed objective, made while the state is `Completed`. -/
def UMissionComponent.LowersCompletedMission (c : UMissionComponent) : MissionCall → Bool
  | MissionCall.UpdateObjectiveProgress ObjectiveIndex NewProgress =>
      decide (c.CurrentMission.State = EMissionState.Completed) &&
        (match c.CurrentMission.ObjectiveAt ObjectiveIndex with
         | some Objective => decide (NewProgress < Objective.TargetCount)
         | none => false)
  | _ => false

/-- A call sequence none of whose calls, at the moment it is made, lowers an objective of
a `Completed` mission below its target. -/
def UMissionComponent.KeepsCompletedObjectives :
    UMissionComponent → List MissionCall → Bool
  | _, [] => true
  | c, Call :: Rest =>
      !c.LowersCompletedMission Call && KeepsCompletedObjectives (c.Invoke Call) Rest

/-- A mission in the degenerate configuration: two objectives whose `Target` is 0, both
with `Progress == 0` and `bIsCompleted == false`, in the given state. -/
def zeroTargetMission (State : EMissionState) : FMissionData :=
  { State := State, MissionID := "M0", Title := "Degenerate", Description := "Nothing to do",
    Objectives :=
      [ { Description := "First", CurrentCount := 0, TargetCount := 0 },
        { Description := "Second", CurrentCount := 0, TargetCount := 0 } ],
    ExperienceReward := 10, CurrencyReward := 5 }

/-! ## Auxiliary facts -/

section Auxiliary

open FMissionData UMissionComponent

theorem areAllObjectivesCompletedLoop_iff (l : List FMissionObjective) :
    AreAllObjectivesCompletedLoop l = true ↔ ∀ Obj ∈ l, Obj.bIsCompleted = true := by
  induction l with
  | nil => simp [AreAllObjectivesCompletedLoop]
  | cons a l ih => cases h : a.bIsCompleted <;> simp [AreAllObjectivesCompletedLoop, h, ih]

theorem isValidIndex_iff {α : Type} (l : List α) (i : Int) :
    TArray.IsValidIndex l i = true ↔ 0 ≤ i ∧ i.toNat < l.length := by
  unfold TArray.IsValidIndex
  simp only [Bool.and_eq_true, decide_eq_true_eq, ge_iff_le]
  constructor
  · rintro ⟨h0, h1⟩
    exact ⟨h0, by omega⟩
  · rintro ⟨h0, h1⟩
    exact ⟨h0, by omega⟩

theorem objectiveAt_eq_some (m : FMissionData) (i : Int) (Obj : FMissionObjective) :
    m.ObjectiveAt i = some Obj ↔
      TArray.IsValidIndex m.Objectives i = true ∧ m.Objectives[i.toNat]? = some Obj := by
  unfold FMissionData.ObjectiveAt
  by_cases h : TArray.IsValidIndex m.Objectives i = true <;> simp [h]

theorem clamp_ge_of_le (X Max : Int) (h : Max ≤ X) : Max ≤ FMath.Clamp X 0 Max := by
  unfold FMath.Clamp
  split_ifs <;> omega

theorem clamp_eq_cases (X Max : Int) :
    FMath.Clamp X 0 Max = if X < 0 then 0 else if X > Max then Max else X := by
  unfold FMath.Clamp
  split_ifs <;> omega

theorem update_fst_of_valid (c : UMissionComponent) (i p : Int)
    (hi : TArray.IsValidIndex c.CurrentMission.Objectives i = true) :
    (c.UpdateObjectiveProgress i p).1 =
      if AreAllObjectivesCompletedLoop
          (c.CurrentMission.Objectives.modify (UMissionComponent.SetObjectiveProgress p) i.toNat)
            = true ∧ c.CurrentMission.State = EMissionState.InProgress then
        ⟨{ c.CurrentMission with
            State := EMissionState.Completed,
            Objectives := c.CurrentMission.Objectives.modify
              (UMissionComponent.SetObjectiveProgress p) i.toNat }⟩
      else
        ⟨{ c.CurrentMission with
            Objectives := c.CurrentMission.Objectives.modify
              (UMissionComponent.SetObjectiveProgress p) i.toNat }⟩ := by
  unfold UMissionComponent.UpdateObjectiveProgress UMissionComponent.CompleteMission
    FMissionData.AreAllObjectivesCompleted
  simp only [hi, if_true]
  by_cases h1 : AreAllObjectivesCompletedLoop
      (c.CurrentMission.Objectives.modify (UMissionComponent.SetObjectiveProgress p) i.toNat) = true
  · by_cases h2 : c.CurrentMission.State = EMissionState.InProgress <;> simp [h1, h2]
  · simp [h1]

theorem update_of_invalid (c : UMissionComponent) (i p : Int)
    (hi : TArray.IsValidIndex c.CurrentMission.Objectives i = false) :
    c.UpdateObjectiveProgress i p = (c, [LogTempWarning.InvalidObjectiveIndex i]) := by
  unfold UMissionComponent.UpdateObjectiveProgress
  simp [hi]

theorem mem_modify_cases {α : Type} (f : α → α) (l : List α) (n : Nat) (x : α)
    (hx : x ∈ l.modify f n) : x ∈ l ∨ ∃ a, l[n]? = some a ∧ x = f a := by
  induction l generalizing n with
  | nil => simp at hx
  | cons b l ih =>
    cases n with
    | zero =>
      simp only [List.modify_zero_cons, List.mem_cons] at hx
      rcases hx with hx | hx
      · exact Or.inr ⟨b, by simp, hx⟩
      · exact Or.inl (List.mem_cons_of_mem _ hx)
    | succ k =>
      simp only [List.modify_succ_cons, List.mem_cons] at hx
      rcases hx with hx | hx
      · exact Or.inl (by simp [hx])
      · rcases ih k hx with h | ⟨a, ha, hxa⟩
        · exact Or.inl (List.mem_cons_of_mem _ h)
        · exact Or.inr ⟨a, by simpa using ha, hxa⟩

theorem setObjectiveProgress_completed_of_le (p : Int) (Obj : FMissionObjective)
    (h : Obj.TargetCount ≤ p) :
    (UMissionComponent.SetObjectiveProgress p Obj).bIsCompleted = true := by
  simp only [UMissionComponent.SetObjectiveProgress, decide_eq_true_eq, ge_iff_le]
  exact clamp_ge_of_le p Obj.TargetCount h

theorem invoke_keeps_completion (c : UMissionComponent) (Call : MissionCall)
    (hinv : c.CurrentMission.State = EMissionState.Completed →
      c.CurrentMission.AreAllObjectivesCompleted = true)
    (hk : c.LowersCompletedMission Call = false) :
    (c.Invoke Call).CurrentMission.State = EMissionState.Completed →
      (c.Invoke Call).CurrentMission.AreAllObjectivesCompleted = true := by
  cases Call with
  | StartMission =>
    simp only [UMissionComponent.Invoke, UMissionComponent.StartMission]
    split_ifs with h
    · intro hs; simp at hs
    · exact hinv
  | CompleteMission =>
    simp only [UMissionComponent.Invoke, UMissionComponent.CompleteMission]
    split_ifs with h
    · intro _; exact h.2
    · exact hinv
  | FailMission =>
    simp only [UMissionComponent.Invoke, UMissionComponent.FailMission]
    split_ifs with h
    · intro hs; simp at hs
    · exact hinv
  | ResetMission =>
    simp only [UMissionComponent.Invoke, UMissionComponent.ResetMission,
      FMissionData.ResetMission]
    intro hs; simp at hs
  | UpdateObjectiveProgress i p =>
    simp only [UMissionComponent.Invoke]
    by_cases hi : TArray.IsValidIndex c.CurrentMission.Objectives i = true
    · rw [update_fst_of_valid c i p hi]
      split_ifs with h
      · intro _; exact h.1
      · intro hs
        have hs0 : c.CurrentMission.State = EMissionState.Completed := hs
        have hall := (areAllObjectivesCompletedLoop_iff _).1 (hinv hs0)
        refine (areAllObjectivesCompletedLoop_iff _).2 ?_
        intro x hx
        rcases mem_modify_cases _ _ _ _ hx with hx | ⟨a, ha, hxa⟩
        · exact hall x hx
        · have hat : c.CurrentMission.ObjectiveAt i = some a :=
            (objectiveAt_eq_some _ _ _).2 ⟨hi, ha⟩
          have hle : a.TargetCount ≤ p := by
            simp only [UMissionComponent.LowersCompletedMission, hs0, hat, decide_True,
              Bool.true_and, decide_eq_false_iff_not, not_lt] at hk
            exact hk
          rw [hxa]
          exact setObjectiveProgress_completed_of_le p a hle
    · have hi0 : TArray.IsValidIndex c.CurrentMission.Objectives i = false := by
        simpa using hi
      rw [update_of_invalid c i p hi0]
      exact hinv

theorem invokeAll_keeps_completion (Calls : List MissionCall) (c : UMissionComponent)
    (hinv : c.CurrentMission.State = EMissionState.Completed →
      c.CurrentMission.AreAllObjectivesCompleted = true)
    (hk : c.KeepsCompletedObjectives Calls = true) :
    (c.InvokeAll Calls).CurrentMission.State = EMissionState.Completed →
      (c.InvokeAll Calls).CurrentMission.AreAllObjectivesCompleted = true := by
  induction Calls generalizing c with
  | nil => simpa [UMissionComponent.InvokeAll] using hinv
  | cons Call Rest ih =>
    simp only [UMissionComponent.KeepsCompletedObjectives, Bool.and_eq_true,
      Bool.not_eq_true'] at hk
    have hstep := invoke_keeps_completion c Call hinv hk.1
    have := ih (c.Invoke Call) hstep hk.2
    simpa [UMissionComponent.InvokeAll] using this

theorem objectiveAt_update (c : UMissionComponent) (i p : Int) (Obj : FMissionObjective)
    (hat : c.CurrentMission.ObjectiveAt i = some Obj) :
    (c.UpdateObjectiveProgress i p).1.CurrentMission.ObjectiveAt i
      = some (UMissionComponent.SetObjectiveProgress p Obj) := by
  obtain ⟨hi, hget⟩ := (objectiveAt_eq_some _ _ _).1 hat
  have hi2 : TArray.IsValidIndex
      (c.CurrentMission.Objectives.modify (UMissionComponent.SetObjectiveProgress p) i.toNat) i
        = true := by
    rw [isValidIndex_iff] at hi ⊢
    simpa using hi
  rw [update_fst_of_valid c i p hi]
  split_ifs with h <;>
    exact (objectiveAt_eq_some _ _ _).2 ⟨hi2, by simp [hget]⟩

end Auxiliary

/-! ## The completion invariant -/

/-- C1 (counterexample): the invariant "state == Completed implies every objective is
completed" fails on a mission reached from an initial mission by component calls. The
mission with targets 3 and 1 is started, both objectives are driven to their targets (which
completes the mission), and then `UpdateObjectiveProgress(0, 0)` clears the flag of
objective 0 while the state stays `Completed`. -/
theorem C1_completed_with_incomplete_objective :
    IsInitialMission (twoObjectiveMission EMissionState.NotStarted) ∧
    ((UMissionComponent.mk (twoObjectiveMission EMissionState.NotStarted)).InvokeAll
      [MissionCall.StartMission, MissionCall.UpdateObjectiveProgress 0 3,
       MissionCall.UpdateObjectiveProgress 1 1,
       MissionCall.UpdateObjectiveProgress 0 0]).CurrentMission.State
        = EMissionState.Completed ∧
    ((UMissionComponent.mk (twoObjectiveMission EMissionState.NotStarted)).InvokeAll
      [MissionCall.StartMission, MissionCall.UpdateObjectiveProgress 0 3,
       MissionCall.UpdateObjectiveProgress 1 1,
       MissionCall.UpdateObjectiveProgress 0 0]).AreAllObjectivesCompleted = false := by
  decide

/-- C1 (amended): for every mission reached from an initial mission by a finite sequence
of `StartMission`, `CompleteMission`, `FailMission`, `ResetMission` and
`UpdateObjectiveProgress` calls in which no `UpdateObjectiveProgress` call is made on a
`Completed` mission with a valid index and a new progress below the target of the addressed
objective, `state == Completed` implies that `AreAllObjectivesCompleted()` is true. -/
theorem C1_completed_implies_all_objectives_completed (m : FMissionData)
    (Calls : List MissionCall) (hinit : IsInitialMission m)
    (hkeep : (UMissionComponent.mk m).KeepsCompletedObjectives Calls = true)
    (hstate : ((UMissionComponent.mk m).InvokeAll Calls).CurrentMission.State
      = EMissionState.Completed) :
    ((UMissionComponent.mk m).InvokeAll Calls).AreAllObjectivesCompleted = true := by
  have hinv : (UMissionComponent.mk m).CurrentMission.State = EMissionState.Completed →
      (UMissionComponent.mk m).CurrentMission.AreAllObjectivesCompleted = true := by
    intro hs
    have h0 : m.State = EMissionState.NotStarted := hinit.1
    have h1 : m.State = EMissionState.Completed := hs
    rw [h0] at h1
    cases h1
  exact invokeAll_keeps_completion Calls _ hinv hkeep hstate

/-- C1 (witness): the amended invariant applied to the mission with targets 3 and 1,
started, completed by two updates and then updated again without lowering an objective
below its target (a repeated update at the target and an update with an invalid index). -/
theorem C1_completed_implies_all_objectives_completed_witness :
    IsInitialMission (twoObjectiveMission EMissionState.NotStarted) ∧
    (UMissionComponent.mk (twoObjectiveMission EMissionState.NotStarted)).KeepsCompletedObjectives
      [MissionCall.StartMission, MissionCall.UpdateObjectiveProgress 0 3,
       MissionCall.UpdateObjectiveProgress 1 1, MissionCall.UpdateObjectiveProgress 0 7,
       MissionCall.UpdateObjectiveProgress 9 0] = true ∧
    ((UMissionComponent.mk (twoObjectiveMission EMissionState.NotStarted)).InvokeAll
      [MissionCall.StartMission, MissionCall.UpdateObjectiveProgress 0 3,
       MissionCall.UpdateObjectiveProgress 1 1, MissionCall.UpdateObjectiveProgress 0 7,
       MissionCall.UpdateObjectiveProgress 9 0]).CurrentMission.State
        = EMissionState.Completed ∧
    ((UMissionComponent.mk (twoObjectiveMission EMissionState.NotStarted)).InvokeAll
      [MissionCall.StartMission, MissionCall.UpdateObjectiveProgress 0 3,
       MissionCall.UpdateObjectiveProgress 1 1, MissionCall.UpdateObjectiveProgress 0 7,
       MissionCall.UpdateObjectiveProgress 9 0]).AreAllObjectivesCompleted = true :=
  ⟨by decide, by decide, by decide,
    C1_completed_implies_all_objectives_completed _ _ (by decide) (by decide) (by decide)⟩

/-! ## `UMissionComponent::UpdateObjectiveProgress` -/

/-- C2: for a mission in state `InProgress`, a valid objective index and any new progress,
after `UMissionComponent::UpdateObjectiveProgress` the state is `Completed` if every
objective is completed after the update and is still `InProgress` otherwise. -/
theorem C2_update_completes_exactly_when_all_completed (c : UMissionComponent) (i p : Int)
    (hs : c.CurrentMission.State = EMissionState.InProgress)
    (hi : TArray.IsValidIndex c.CurrentMission.Objectives i = true) :
    (c.UpdateObjectiveProgress i p).1.CurrentMission.State =
      if (c.UpdateObjectiveProgress i p).1.AreAllObjectivesCompleted = true then
        EMissionState.Completed
      else EMissionState.InProgress := by
  rw [update_fst_of_valid c i p hi]
  by_cases h : FMissionData.AreAllObjectivesCompletedLoop
      (c.CurrentMission.Objectives.modify (UMissionComponent.SetObjectiveProgress p) i.toNat) = true
  · simp [h, hs, UMissionComponent.AreAllObjectivesCompleted,
      FMissionData.AreAllObjectivesCompleted]
  · simp [h, hs, UMissionComponent.AreAllObjectivesCompleted,
      FMissionData.AreAllObjectivesCompleted]

/-- C2 (witness): the auto-completion scenario. On the `InProgress` mission with targets 3
and 1, updating objective 0 to 3 leaves the state `InProgress` (objective 1 is incomplete),
and then updating objective 1 to 1 makes the state `Completed`. -/
theorem C2_update_completes_exactly_when_all_completed_witness :
    ((UMissionComponent.mk (twoObjectiveMission EMissionState.InProgress)).UpdateObjectiveProgress
        0 3).1.AreAllObjectivesCompleted = false ∧
    ((UMissionComponent.mk (twoObjectiveMission EMissionState.InProgress)).UpdateObjectiveProgress
        0 3).1.CurrentMission.State = EMissionState.InProgress ∧
    (((UMissionComponent.mk (twoObjectiveMission EMissionState.InProgress)).UpdateObjectiveProgress
        0 3).1.UpdateObjectiveProgress 1 1).1.CurrentMission.State = EMissionState.Completed ∧
    (((UMissionComponent.mk (twoObjectiveMission EMissionState.InProgress)).UpdateObjectiveProgress
        0 3).1.UpdateObjectiveProgress 1 1).1.CurrentMission.State =
      if (((UMissionComponent.mk
            (twoObjectiveMission EMissionState.InProgress)).UpdateObjectiveProgress
          0 3).1.UpdateObjectiveProgress 1 1).1.AreAllObjectivesCompleted = true then
        EMissionState.Completed
      else EMissionState.InProgress :=
  ⟨by decide, by decide, by decide,
    C2_update_completes_exactly_when_all_completed
      ((UMissionComponent.mk (twoObjectiveMission EMissionState.InProgress)).UpdateObjectiveProgress
        0 3).1 1 1 (by decide) (by decide)⟩

/-- C3: for a valid index whose objective has `Target >= 1` and any new progress, after
`UMissionComponent::UpdateObjectiveProgress` the addressed objective has progress 0 when
the new progress is negative, `Target` when it exceeds `Target`, and the new progress
otherwise; so `0 <= Progress <= Target`, the target being the one the objective had. -/
theorem C3_update_clamps_progress (c : UMissionComponent) (i p : Int)
    (Obj : FMissionObjective) (hat : c.CurrentMission.ObjectiveAt i = some Obj)
    (hT : 1 ≤ Obj.TargetCount) :
    ∃ Obj1 : FMissionObjective,
      (c.UpdateObjectiveProgress i p).1.CurrentMission.ObjectiveAt i = some Obj1 ∧
      Obj1.TargetCount = Obj.TargetCount ∧
      Obj1.CurrentCount
        = (if p < 0 then 0 else if p > Obj.TargetCount then Obj.TargetCount else p) ∧
      0 ≤ Obj1.CurrentCount ∧ Obj1.CurrentCount ≤ Obj1.TargetCount := by
  refine ⟨UMissionComponent.SetObjectiveProgress p Obj, objectiveAt_update c i p Obj hat,
    rfl, ?_, ?_, ?_⟩
  · exact clamp_eq_cases p Obj.TargetCount
  · show 0 ≤ FMath.Clamp p 0 Obj.TargetCount
    rw [clamp_eq_cases]
    split_ifs <;> omega
  · show FMath.Clamp p 0 Obj.TargetCount ≤ Obj.TargetCount
    rw [clamp_eq_cases]
    split_ifs <;> omega

/-- C3 (witness): on the mission with targets 3 and 1, updating objective 0 to -4 stores
progress 0 (the negative branch of the clamp). -/
theorem C3_update_clamps_progress_witness :
    ∃ Obj1 : FMissionObjective,
      ((UMissionComponent.mk (twoObjectiveMission EMissionState.InProgress)).UpdateObjectiveProgress
        0 (-4)).1.CurrentMission.ObjectiveAt 0 = some Obj1 ∧
      Obj1.TargetCount = 3 ∧
      Obj1.CurrentCount = (if (-4 : Int) < 0 then 0 else if (-4 : Int) > 3 then 3 else -4) ∧
      0 ≤ Obj1.CurrentCount ∧ Obj1.CurrentCount ≤ Obj1.TargetCount :=
  C3_update_clamps_progress (UMissionComponent.mk (twoObjectiveMission EMissionState.InProgress))
    0 (-4) { Description := "Collect crates", CurrentCount := 0, TargetCount := 3 }
    (by decide) (by decide)

/-- C4: for a valid objective index and any new progress, after
`UMissionComponent::UpdateObjectiveProgress` the addressed objective satisfies
`bIsCompleted == (Progress >= Target)`, where `Progress` is the clamped new progress and
`Target` is unchanged. The flag is recomputed in both directions: whatever it was before,
it is false when the clamped progress is below the target and true otherwise. -/
theorem C4_update_recomputes_completed (c : UMissionComponent) (i p : Int)
    (Obj : FMissionObjective) (hat : c.CurrentMission.ObjectiveAt i = some Obj) :
    ∃ Obj1 : FMissionObjective,
      (c.UpdateObjectiveProgress i p).1.CurrentMission.ObjectiveAt i = some Obj1 ∧
      Obj1.TargetCount = Obj.TargetCount ∧
      Obj1.CurrentCount = FMath.Clamp p 0 Obj.TargetCount ∧
      Obj1.bIsCompleted = decide (Obj1.CurrentCount ≥ Obj1.TargetCount) ∧
      (FMath.Clamp p 0 Obj.TargetCount < Obj.TargetCount → Obj1.bIsCompleted = false) ∧
      (Obj.TargetCount ≤ FMath.Clamp p 0 Obj.TargetCount → Obj1.bIsCompleted = true) := by
  refine ⟨UMissionComponent.SetObjectiveProgress p Obj, objectiveAt_update c i p Obj hat,
    rfl, rfl, rfl, ?_, ?_⟩
  · intro h
    simp only [UMissionComponent.SetObjectiveProgress, ge_iff_le, decide_eq_false_iff_not,
      not_le]
    exact h
  · intro h
    simp only [UMissionComponent.SetObjectiveProgress, ge_iff_le, decide_eq_true_eq]
    exact h

/-- C4 (witness): objective 0 (target 3) is completed by an update to 3, and a further
update to 2 stores progress 2 and clears its flag. -/
theorem C4_update_recomputes_completed_witness :
    ((UMissionComponent.mk (twoObjectiveMission EMissionState.InProgress)).UpdateObjectiveProgress
        0 3).1.CurrentMission.ObjectiveAt 0
      = some { Description := "Collect crates", bIsCompleted := true, CurrentCount := 3,
               TargetCount := 3 } ∧
    ∃ Obj1 : FMissionObjective,
      (((UMissionComponent.mk
          (twoObjectiveMission EMissionState.InProgress)).UpdateObjectiveProgress
        0 3).1.UpdateObjectiveProgress 0 2).1.CurrentMission.ObjectiveAt 0 = some Obj1 ∧
      Obj1.TargetCount = 3 ∧
      Obj1.CurrentCount = FMath.Clamp 2 0 3 ∧
      Obj1.bIsCompleted = decide (Obj1.CurrentCount ≥ Obj1.TargetCount) ∧
      (FMath.Clamp 2 0 3 < 3 → Obj1.bIsCompleted = false) ∧
      ((3 : Int) ≤ FMath.Clamp 2 0 3 → Obj1.bIsCompleted = true) :=
  ⟨by decide,
    C4_update_recomputes_completed
      ((UMissionComponent.mk (twoObjectiveMission EMissionState.InProgress)).UpdateObjectiveProgress
        0 3).1 0 2
      { Description := "Collect crates", bIsCompleted := true, CurrentCount := 3,
        TargetCount := 3 } (by decide)⟩

/-- C5: for an index that addresses no objective (`index < 0` or `index >= Num()`) and any
new progress, `UMissionComponent::UpdateObjectiveProgress` reports the invalid index (the
warning "Invalid ObjectiveIndex" with the index, its only output) and leaves the component,
hence the whole mission (state, objectives, metadata and rewards), unchanged. -/
theorem C5_update_invalid_index (c : UMissionComponent) (i p : Int)
    (hi : i < 0 ∨ (c.CurrentMission.Objectives.length : Int) ≤ i) :
    c.UpdateObjectiveProgress i p = (c, [LogTempWarning.InvalidObjectiveIndex i]) := by
  apply update_of_invalid
  have h := isValidIndex_iff c.CurrentMission.Objectives i
  cases hv : TArray.IsValidIndex c.CurrentMission.Objectives i
  · rfl
  · have := h.1 hv
    omega

/-- C5 (witness): `UpdateObjectiveProgress(99, 5)` on the mission with 2 objectives. -/
theorem C5_update_invalid_index_witness :
    ((99 : Int) < 0 ∨
      ((UMissionComponent.mk
        (twoObjectiveMission EMissionState.InProgress)).CurrentMission.Objectives.length : Int)
          ≤ 99) ∧
    (UMissionComponent.mk (twoObjectiveMission EMissionState.InProgress)).UpdateObjectiveProgress
        99 5
      = (UMissionComponent.mk (twoObjectiveMission EMissionState.InProgress),
          [LogTempWarning.InvalidObjectiveIndex 99]) :=
  ⟨by decide, C5_update_invalid_index _ 99 5 (by decide)⟩

/-! ## `ResetMission` -/

/-- C6: `ResetMission` (of the component, which calls the one of the mission data), from
any state, yields the mission whose state is `NotStarted` and in which every objective has
progress 0 and `bIsCompleted == false`; the number and order of the objectives, the target
and description of each objective, and the mission id, title, description, experience
reward and currency reward are those of the mission before the call. -/
theorem C6_reset_mission (c : UMissionComponent) :
    c.ResetMission.CurrentMission = c.CurrentMission.ResetMission ∧
    c.ResetMission.CurrentMission.State = EMissionState.NotStarted ∧
    c.ResetMission.CurrentMission.Objectives.length = c.CurrentMission.Objectives.length ∧
    (∀ j : Nat, c.ResetMission.CurrentMission.Objectives[j]? =
      (c.CurrentMission.Objectives[j]?).map (fun Obj =>
        { Description := Obj.Description, bIsCompleted := false, CurrentCount := 0,
          TargetCount := Obj.TargetCount })) ∧
    (∀ Obj ∈ c.ResetMission.CurrentMission.Objectives,
      Obj.CurrentCount = 0 ∧ Obj.bIsCompleted = false) ∧
    c.ResetMission.CurrentMission.MissionID = c.CurrentMission.MissionID ∧
    c.ResetMission.CurrentMission.Title = c.CurrentMission.Title ∧
    c.ResetMission.CurrentMission.Description = c.CurrentMission.Description ∧
    c.ResetMission.CurrentMission.ExperienceReward = c.CurrentMission.ExperienceReward ∧
    c.ResetMission.CurrentMission.CurrencyReward = c.CurrentMission.CurrencyReward := by
  refine ⟨rfl, rfl, ?_, ?_, ?_, rfl, rfl, rfl, rfl, rfl⟩
  · simp [UMissionComponent.ResetMission, FMissionData.ResetMission]
  · intro j
    simp only [UMissionComponent.ResetMission, FMissionData.ResetMission, List.getElem?_map]
    cases c.CurrentMission.Objectives[j]? <;> rfl
  · intro Obj hObj
    simp only [UMissionComponent.ResetMission, FMissionData.ResetMission,
      List.mem_map] at hObj
    obtain ⟨Old, _, hOld⟩ := hObj
    rw [← hOld]
    exact ⟨rfl, rfl⟩

/-! ## The state transitions of the component -/

/-- C7: `UMissionComponent::CompleteMission` yields state `Completed` if and only if the
mission is `InProgress` with every objective completed, or was already `Completed`; unless
the mission is `InProgress` with every objective completed, it is returned unchanged; and
in all cases the objectives, the metadata and the rewards are unchanged. -/
theorem C7_complete_mission (c : UMissionComponent) :
    (c.CompleteMission.CurrentMission.State = EMissionState.Completed ↔
      (c.CurrentMission.State = EMissionState.InProgress ∧
        c.AreAllObjectivesCompleted = true) ∨
      c.CurrentMission.State = EMissionState.Completed) ∧
    ((c.CurrentMission.State = EMissionState.InProgress ∧
        c.AreAllObjectivesCompleted = true) ∨ c.CompleteMission = c) ∧
    c.CompleteMission.CurrentMission.Objectives = c.CurrentMission.Objectives ∧
    c.CompleteMission.CurrentMission.MissionID = c.CurrentMission.MissionID ∧
    c.CompleteMission.CurrentMission.Title = c.CurrentMission.Title ∧
    c.CompleteMission.CurrentMission.Description = c.CurrentMission.Description ∧
    c.CompleteMission.CurrentMission.ExperienceReward = c.CurrentMission.ExperienceReward ∧
    c.CompleteMission.CurrentMission.CurrencyReward = c.CurrentMission.CurrencyReward := by
  unfold UMissionComponent.CompleteMission UMissionComponent.AreAllObjectivesCompleted
  by_cases h : c.CurrentMission.State = EMissionState.InProgress ∧
      c.CurrentMission.AreAllObjectivesCompleted = true
  · simp [h]
  · simp only [h, if_false, false_or, and_self, and_true, or_true, true_and]

/-- C8: `UMissionComponent::StartMission` yields state `InProgress` when the mission is
`NotStarted` and returns the mission unchanged when it is `InProgress`, `Completed` or
`Failed`; the objectives, the metadata and the rewards are unchanged in all cases. -/
theorem C8_start_mission (c : UMissionComponent) :
    ((c.CurrentMission.State = EMissionState.NotStarted ∧
        c.StartMission.CurrentMission.State = EMissionState.InProgress) ∨
      ((c.CurrentMission.State = EMissionState.InProgress ∨
          c.CurrentMission.State = EMissionState.Completed ∨
          c.CurrentMission.State = EMissionState.Failed) ∧ c.StartMission = c)) ∧
    c.StartMission.CurrentMission.Objectives = c.CurrentMission.Objectives ∧
    c.StartMission.CurrentMission.MissionID = c.CurrentMission.MissionID ∧
    c.StartMission.CurrentMission.Title = c.CurrentMission.Title ∧
    c.StartMission.CurrentMission.Description = c.CurrentMission.Description ∧
    c.StartMission.CurrentMission.ExperienceReward = c.CurrentMission.ExperienceReward ∧
    c.StartMission.CurrentMission.CurrencyReward = c.CurrentMission.CurrencyReward := by
  unfold UMissionComponent.StartMission
  cases hs : c.CurrentMission.State <;> simp

/-- C9: `UMissionComponent::FailMission` yields state `Failed` when the mission is
`InProgress`, with no condition on its objectives, and returns the mission unchanged when
it is `NotStarted`, `Completed` or `Failed`; the objectives, the metadata and the rewards
are unchanged in all cases. -/
theorem C9_fail_mission (c : UMissionComponent) :
    ((c.CurrentMission.State = EMissionState.InProgress ∧
        c.FailMission.CurrentMission.State = EMissionState.Failed) ∨
      ((c.CurrentMission.State = EMissionState.NotStarted ∨
          c.CurrentMission.State = EMissionState.Completed ∨
          c.CurrentMission.State = EMissionState.Failed) ∧ c.FailMission = c)) ∧
    c.FailMission.CurrentMission.Objectives = c.CurrentMission.Objectives ∧
    c.FailMission.CurrentMission.MissionID = c.CurrentMission.MissionID ∧
    c.FailMission.CurrentMission.Title = c.CurrentMission.Title ∧
    c.FailMission.CurrentMission.Description = c.CurrentMission.Description ∧
    c.FailMission.CurrentMission.ExperienceReward = c.CurrentMission.ExperienceReward ∧
    c.FailMission.CurrentMission.CurrencyReward = c.CurrentMission.CurrencyReward := by
  unfold UMissionComponent.FailMission
  cases hs : c.CurrentMission.State <;> simp

/-- C10: the transition table of the component. For every single call other than
`ResetMission` (that is `StartMission`, `CompleteMission`, `FailMission` or
`UpdateObjectiveProgress` with any index and progress), a `NotStarted` mission ends
`NotStarted` or `InProgress` (never `Completed` or `Failed`, also when the update completes
every objective), an `InProgress` mission does not return to `NotStarted`, and a `Completed`
or `Failed` mission keeps its state; `ResetMission` yields `NotStarted` from every state. -/
theorem C10_transition_table (c : UMissionComponent) (Call : MissionCall)
    (hcall : Call ≠ MissionCall.ResetMission) :
    (c.CurrentMission.State = EMissionState.NotStarted →
      (c.Invoke Call).CurrentMission.State = EMissionState.NotStarted ∨
      (c.Invoke Call).CurrentMission.State = EMissionState.InProgress) ∧
    (c.CurrentMission.State = EMissionState.InProgress →
      (c.Invoke Call).CurrentMission.State ≠ EMissionState.NotStarted) ∧
    (c.CurrentMission.State = EMissionState.Completed →
      (c.Invoke Call).CurrentMission.State = EMissionState.Completed) ∧
    (c.CurrentMission.State = EMissionState.Failed →
      (c.Invoke Call).CurrentMission.State = EMissionState.Failed) ∧
    (c.Invoke MissionCall.ResetMission).CurrentMission.State = EMissionState.NotStarted := by
  cases Call with
  | StartMission =>
    simp only [UMissionComponent.Invoke, UMissionComponent.StartMission,
      UMissionComponent.ResetMission, FMissionData.ResetMission]
    cases hs : c.CurrentMission.State <;> simp [hs]
  | CompleteMission =>
    simp only [UMissionComponent.Invoke, UMissionComponent.CompleteMission,
      UMissionComponent.ResetMission, FMissionData.ResetMission]
    cases hs : c.CurrentMission.State <;>
      cases ha : c.CurrentMission.AreAllObjectivesCompleted <;> simp [hs]
  | FailMission =>
    simp only [UMissionComponent.Invoke, UMissionComponent.FailMission,
      UMissionComponent.ResetMission, FMissionData.ResetMission]
    cases hs : c.CurrentMission.State <;> simp [hs]
  | ResetMission => exact absurd rfl hcall
  | UpdateObjectiveProgress i p =>
    simp only [UMissionComponent.Invoke, UMissionComponent.ResetMission,
      FMissionData.ResetMission]
    by_cases hi : TArray.IsValidIndex c.CurrentMission.Objectives i = true
    · rw [update_fst_of_valid c i p hi]
      by_cases ha : FMissionData.AreAllObjectivesCompletedLoop
          (c.CurrentMission.Objectives.modify (UMissionComponent.SetObjectiveProgress p)
            i.toNat) = true
      · cases hs : c.CurrentMission.State <;> simp [ha, hs]
      · cases hs : c.CurrentMission.State <;> simp [ha, hs]
    · have hi0 : TArray.IsValidIndex c.CurrentMission.Objectives i = false := by
        simpa using hi
      rw [update_of_invalid c i p hi0]
      cases hs : c.CurrentMission.State <;> simp [hs]

/-- C10 (witness): a `Failed` mission sent `StartMission`, `CompleteMission` or
`FailMission` stays `Failed`; the table is applied to the `StartMission` call. -/
theorem C10_transition_table_witness :
    ((UMissionComponent.mk (twoObjectiveMission EMissionState.Failed)).Invoke
      MissionCall.StartMission).CurrentMission.State = EMissionState.Failed ∧
    ((UMissionComponent.mk (twoObjectiveMission EMissionState.Failed)).Invoke
      MissionCall.CompleteMission).CurrentMission.State = EMissionState.Failed ∧
    ((UMissionComponent.mk (twoObjectiveMission EMissionState.Failed)).Invoke
      MissionCall.FailMission).CurrentMission.State = EMissionState.Failed ∧
    ((UMissionComponent.mk (twoObjectiveMission EMissionState.Failed)).Invoke
      MissionCall.ResetMission).CurrentMission.State = EMissionState.NotStarted ∧
    MissionCall.StartMission ≠ MissionCall.ResetMission :=
  ⟨(C10_transition_table (UMissionComponent.mk (twoObjectiveMission EMissionState.Failed))
      MissionCall.StartMission (by decide)).2.2.2.1 (by decide),
    by decide, by decide, by decide, by decide⟩

/-! ## The data-level mutators of `FMissionData` -/

/-- C11 (the code at the failing inputs): `FMissionData::CompleteMission` and
`FMissionData::FailMission` assign the state without looking at it. On the `NotStarted`
mission with targets 3 and 1, whose objectives are incomplete, `CompleteMission` yields
`Completed` and `FailMission` yields `Failed`; on the `Completed` mission `FailMission`
yields `Failed`, and on the `Failed` mission `CompleteMission` yields `Completed`. -/
theorem C11_data_level_mutators_unguarded :
    (twoObjectiveMission EMissionState.NotStarted).AreAllObjectivesCompleted = false ∧
    (twoObjectiveMission EMissionState.NotStarted).CompleteMission.State
      = EMissionState.Completed ∧
    (twoObjectiveMission EMissionState.NotStarted).FailMission.State
      = EMissionState.Failed ∧
    (twoObjectiveMission EMissionState.InProgress).CompleteMission.State
      = EMissionState.Completed ∧
    (twoObjectiveMission EMissionState.Completed).FailMission.State
      = EMissionState.Failed ∧
    (twoObjectiveMission EMissionState.Failed).CompleteMission.State
      = EMissionState.Completed := by
  decide

/-- C12 (the code at the failing input): on the mission with targets 3 and 1,
`FMissionData::UpdateObjectiveProgress(0, 3)` completes objective 0, and a following
`FMissionData::UpdateObjectiveProgress(0, 1)` stores progress 1 and leaves the flag set, so
`bIsCompleted` is true while `Progress >= Goal` (progress 1, target 3) is false. -/
theorem C12_data_level_update_keeps_flag :
    ((((twoObjectiveMission EMissionState.InProgress).UpdateObjectiveProgress
        0 3).UpdateObjectiveProgress 0 1).ObjectiveAt 0).map
      (fun Obj => (Obj.CurrentCount, Obj.TargetCount, Obj.bIsCompleted,
        decide (Obj.CurrentCount ≥ Obj.TargetCount)))
      = some (1, 3, true, false) := by
  decide

/-! ## Further auxiliary facts -/

section AuxiliaryFrame

open FMissionData UMissionComponent

theorem update_objectives_of_valid (c : UMissionComponent) (i p : Int)
    (hi : TArray.IsValidIndex c.CurrentMission.Objectives i = true) :
    (c.UpdateObjectiveProgress i p).1.CurrentMission.Objectives =
      c.CurrentMission.Objectives.modify (UMissionComponent.SetObjectiveProgress p)
        i.toNat := by
  rw [update_fst_of_valid c i p hi]
  split_ifs <;> rfl

theorem update_metadata (c : UMissionComponent) (i p : Int) :
    (c.UpdateObjectiveProgress i p).1.CurrentMission.MissionID = c.CurrentMission.MissionID ∧
    (c.UpdateObjectiveProgress i p).1.CurrentMission.Title = c.CurrentMission.Title ∧
    (c.UpdateObjectiveProgress i p).1.CurrentMission.Description
      = c.CurrentMission.Description ∧
    (c.UpdateObjectiveProgress i p).1.CurrentMission.ExperienceReward
      = c.CurrentMission.ExperienceReward ∧
    (c.UpdateObjectiveProgress i p).1.CurrentMission.CurrencyReward
      = c.CurrentMission.CurrencyReward := by
  by_cases hi : TArray.IsValidIndex c.CurrentMission.Objectives i = true
  · rw [update_fst_of_valid c i p hi]
    split_ifs <;> simp
  · have hi0 : TArray.IsValidIndex c.CurrentMission.Objectives i = false := by
      simpa using hi
    rw [update_of_invalid c i p hi0]
    simp

theorem update_state_of_valid (c : UMissionComponent) (i p : Int)
    (hi : TArray.IsValidIndex c.CurrentMission.Objectives i = true) :
    (c.UpdateObjectiveProgress i p).1.CurrentMission.State =
      if AreAllObjectivesCompletedLoop
          (c.CurrentMission.Objectives.modify (UMissionComponent.SetObjectiveProgress p)
            i.toNat) = true ∧ c.CurrentMission.State = EMissionState.InProgress then
        EMissionState.Completed
      else c.CurrentMission.State := by
  rw [update_fst_of_valid c i p hi]
  split_ifs <;> rfl

theorem modify_modify_same {α : Type} (f : α → α) (hf : ∀ a, f (f a) = f a)
    (l : List α) (n : Nat) : (l.modify f n).modify f n = l.modify f n := by
  induction l generalizing n with
  | nil => simp
  | cons b l ih =>
    cases n with
    | zero => simp [hf]
    | succ k => simp [ih]

theorem setObjectiveProgress_idem (p : Int) (Obj : FMissionObjective) :
    UMissionComponent.SetObjectiveProgress p (UMissionComponent.SetObjectiveProgress p Obj)
      = UMissionComponent.SetObjectiveProgress p Obj := by
  simp only [UMissionComponent.SetObjectiveProgress]

theorem getCompletedObjectiveCountLoop_eq (l : List FMissionObjective) (Count : Int) :
    GetCompletedObjectiveCountLoop l Count
      = Count + ((l.countP (fun Obj => Obj.bIsCompleted) : Nat) : Int) := by
  induction l generalizing Count with
  | nil => simp [GetCompletedObjectiveCountLoop]
  | cons a l ih =>
    cases h : a.bIsCompleted
    · simp [GetCompletedObjectiveCountLoop, ih, h]
    · simp [GetCompletedObjectiveCountLoop, ih, h, List.countP_cons]
      omega

theorem setObjectiveProgress_completed_of_nonpos (p : Int) (Obj : FMissionObjective)
    (h : Obj.TargetCount ≤ 0) :
    (UMissionComponent.SetObjectiveProgress p Obj).bIsCompleted = true := by
  simp only [UMissionComponent.SetObjectiveProgress, decide_eq_true_eq, ge_iff_le]
  unfold FMath.Clamp
  split_ifs <;> omega

theorem areAll_modify_iff (f : FMissionObjective → FMissionObjective)
    (l : List FMissionObjective) (n : Nat) (a : FMissionObjective) (ha : l[n]? = some a)
    (hf : (f a).bIsCompleted = true) :
    AreAllObjectivesCompletedLoop (l.modify f n) = true ↔
      ∀ j : Nat, j ≠ n → ∀ Obj, l[j]? = some Obj → Obj.bIsCompleted = true := by
  rw [areAllObjectivesCompletedLoop_iff]
  constructor
  · intro hall j hj Obj hObj
    apply hall
    rw [List.mem_iff_getElem?]
    exact ⟨j, by rw [List.getElem?_modify_ne _ _ (Ne.symm hj)]; exact hObj⟩
  · intro hall x hx
    rw [List.mem_iff_getElem?] at hx
    obtain ⟨j, hj⟩ := hx
    by_cases hjn : j = n
    · subst hjn
      rw [List.getElem?_modify_eq, ha] at hj
      simp only [Option.map_eq_map, Option.map_some', Option.some.injEq] at hj
      rw [← hj]
      exact hf
    · rw [List.getElem?_modify_ne _ _ (Ne.symm hjn)] at hj
      exact hall j hjn x hj

end AuxiliaryFrame

/-! ## The frame of `UMissionComponent::UpdateObjectiveProgress` -/

/-- C13: for a valid index `i` and any new progress,
`UMissionComponent::UpdateObjectiveProgress` changes at most the progress and the completed
flag of objective `i` and the mission state: the number of objectives is the same, every
objective at a position other than `i` is the same (so the order is kept), objective `i`
keeps its target and description, and the mission id, title,
description, experience reward and currency reward are unchanged. -/
theorem C13_update_frame (c : UMissionComponent) (i p : Int)
    (hi : TArray.IsValidIndex c.CurrentMission.Objectives i = true) :
    (c.UpdateObjectiveProgress i p).1.CurrentMission.Objectives.length
      = c.CurrentMission.Objectives.length ∧
    (∀ j : Nat, j ≠ i.toNat →
      (c.UpdateObjectiveProgress i p).1.CurrentMission.Objectives[j]?
        = c.CurrentMission.Objectives[j]?) ∧
    (∃ Obj Obj1 : FMissionObjective,
      c.CurrentMission.ObjectiveAt i = some Obj ∧
      (c.UpdateObjectiveProgress i p).1.CurrentMission.ObjectiveAt i = some Obj1 ∧
      Obj1 = { Obj with CurrentCount := Obj1.CurrentCount,
                        bIsCompleted := Obj1.bIsCompleted } ∧
      Obj1.TargetCount = Obj.TargetCount ∧ Obj1.Description = Obj.Description) ∧
    (c.UpdateObjectiveProgress i p).1.CurrentMission.MissionID = c.CurrentMission.MissionID ∧
    (c.UpdateObjectiveProgress i p).1.CurrentMission.Title = c.CurrentMission.Title ∧
    (c.UpdateObjectiveProgress i p).1.CurrentMission.Description
      = c.CurrentMission.Description ∧
    (c.UpdateObjectiveProgress i p).1.CurrentMission.ExperienceReward
      = c.CurrentMission.ExperienceReward ∧
    (c.UpdateObjectiveProgress i p).1.CurrentMission.CurrencyReward
      = c.CurrentMission.CurrencyReward := by
  refine ⟨?_, ?_, ?_, update_metadata c i p⟩
  · rw [update_objectives_of_valid c i p hi]
    simp
  · intro j hj
    rw [update_objectives_of_valid c i p hi]
    exact List.getElem?_modify_ne _ _ (Ne.symm hj)
  · have hlt := ((isValidIndex_iff _ _).1 hi).2
    have hget : c.CurrentMission.Objectives[i.toNat]?
        = some (c.CurrentMission.Objectives[i.toNat]) := List.getElem?_eq_getElem hlt
    have hat : c.CurrentMission.ObjectiveAt i = some (c.CurrentMission.Objectives[i.toNat]) :=
      (objectiveAt_eq_some _ _ _).2 ⟨hi, hget⟩
    exact ⟨_, _, hat, objectiveAt_update c i p _ hat, rfl, rfl, rfl⟩

/-- C13 (witness): updating objective 0 of the `InProgress` mission with targets 3 and 1
to progress 2. -/
theorem C13_update_frame_witness :
    TArray.IsValidIndex
      (UMissionComponent.mk (twoObjectiveMission EMissionState.InProgress)).CurrentMission.Objectives
      0 = true ∧
    ((UMissionComponent.mk (twoObjectiveMission EMissionState.InProgress)).UpdateObjectiveProgress
      0 2).1.CurrentMission
      = { State := EMissionState.InProgress, MissionID := "M1", Title := "Supplies",
          Description := "Gather and deliver",
          Objectives :=
            [ { Description := "Collect crates", CurrentCount := 2, TargetCount := 3 },
              { Description := "Deliver", CurrentCount := 0, TargetCount := 1 } ],
          ExperienceReward := 100, CurrencyReward := 50 } ∧
    ((UMissionComponent.mk (twoObjectiveMission EMissionState.InProgress)).UpdateObjectiveProgress
      0 2).1.CurrentMission.Objectives.length
        = (UMissionComponent.mk
            (twoObjectiveMission EMissionState.InProgress)).CurrentMission.Objectives.length :=
  ⟨by decide, by decide,
    (C13_update_frame (UMissionComponent.mk (twoObjectiveMission EMissionState.InProgress))
      0 2 (by decide)).1⟩

/-! ## Queries and the empty mission -/

/-- C14: for a mission with zero objectives in state `NotStarted`,
`AreAllObjectivesCompleted()` is true (before and after the start), `StartMission` yields
`InProgress`, and a following explicit `CompleteMission` yields `Completed`. -/
theorem C14_empty_mission_completes (c : UMissionComponent)
    (hobj : c.CurrentMission.Objectives = [])
    (hs : c.CurrentMission.State = EMissionState.NotStarted) :
    c.AreAllObjectivesCompleted = true ∧
    c.StartMission.AreAllObjectivesCompleted = true ∧
    c.StartMission.CurrentMission.State = EMissionState.InProgress ∧
    c.StartMission.CompleteMission.CurrentMission.State = EMissionState.Completed := by
  simp [UMissionComponent.AreAllObjectivesCompleted, FMissionData.AreAllObjectivesCompleted,
    FMissionData.AreAllObjectivesCompletedLoop, UMissionComponent.StartMission,
    UMissionComponent.CompleteMission, hobj, hs]

/-- C14 (witness): the default-constructed mission (no objectives, `NotStarted`) with an id
and a title. -/
theorem C14_empty_mission_completes_witness :
    (UMissionComponent.mk { MissionID := "E", Title := "Empty" }).CurrentMission.Objectives = [] ∧
    (UMissionComponent.mk { MissionID := "E", Title := "Empty" }).AreAllObjectivesCompleted
      = true ∧
    (UMissionComponent.mk
      { MissionID := "E", Title := "Empty" }).StartMission.AreAllObjectivesCompleted = true ∧
    (UMissionComponent.mk
      { MissionID := "E", Title := "Empty" }).StartMission.CurrentMission.State
        = EMissionState.InProgress ∧
    (UMissionComponent.mk
      { MissionID := "E", Title := "Empty" }).StartMission.CompleteMission.CurrentMission.State
        = EMissionState.Completed :=
  ⟨by decide,
    C14_empty_mission_completes (UMissionComponent.mk { MissionID := "E", Title := "Empty" })
      (by decide) (by decide)⟩

/-- C15: `AreAllObjectivesCompleted()` (of the component and of the mission data) is true
if and only if every objective of the list has `bIsCompleted == true`, so it is true for
the empty list (the mission with its objectives removed); it is a query, whose only result
is the returned value. `IsMissionActive()`
(of the component and of the mission data) is true if and only if the state is
`InProgress`. -/
theorem C15_queries (c : UMissionComponent) :
    (c.AreAllObjectivesCompleted = true ↔
      ∀ Obj ∈ c.CurrentMission.Objectives, Obj.bIsCompleted = true) ∧
    (c.CurrentMission.AreAllObjectivesCompleted = true ↔
      ∀ Obj ∈ c.CurrentMission.Objectives, Obj.bIsCompleted = true) ∧
    FMissionData.AreAllObjectivesCompleted { c.CurrentMission with Objectives := [] } = true ∧
    (c.IsMissionActive = true ↔ c.CurrentMission.State = EMissionState.InProgress) ∧
    (c.CurrentMission.IsMissionActive = true ↔
      c.CurrentMission.State = EMissionState.InProgress) := by
  refine ⟨areAllObjectivesCompletedLoop_iff _, areAllObjectivesCompletedLoop_iff _, ?_, ?_, ?_⟩
  · rfl
  · simp [UMissionComponent.IsMissionActive]
  · simp [FMissionData.IsMissionActive]

/-- C16: calling `UMissionComponent::StartMission` twice has the same effect as calling it
once, in every state. -/
theorem C16_start_mission_idempotent (c : UMissionComponent) :
    c.StartMission.StartMission = c.StartMission := by
  unfold UMissionComponent.StartMission
  cases hs : c.CurrentMission.State <;> simp [hs]

/-! ## Objectives with a target that is not positive -/

/-- C17 (counterexample): a mission whose objectives all have `Target <= 0` is not driven
to `Completed` by a single valid update while `InProgress`. On the `InProgress` mission
with two objectives of target 0, `UpdateObjectiveProgress(0, 5)` sets the flag of
objective 0 only; objective 1 keeps `bIsCompleted == false` and the state stays
`InProgress`. -/
theorem C17_zero_targets_not_completed_by_one_update :
    (∀ Obj ∈ (zeroTargetMission EMissionState.InProgress).Objectives,
      Obj.TargetCount ≤ 0) ∧
    TArray.IsValidIndex (zeroTargetMission EMissionState.InProgress).Objectives 0 = true ∧
    ((UMissionComponent.mk (zeroTargetMission EMissionState.InProgress)).UpdateObjectiveProgress
      0 5).1.CurrentMission.State = EMissionState.InProgress ∧
    ((UMissionComponent.mk (zeroTargetMission EMissionState.InProgress)).UpdateObjectiveProgress
      0 5).1.CurrentMission.Objectives.map (fun Obj => Obj.bIsCompleted) = [true, false] := by
  decide

/-- C17 (amended): for a valid index whose objective has `Target <= 0` and any new
progress, after `UMissionComponent::UpdateObjectiveProgress` the completed flag of that
objective is true, in every mission state; hence, when the mission is `InProgress`, the
update drives it to `Completed` exactly when every other objective already has its
completed flag set. -/
theorem C17_nonpositive_target_update (c : UMissionComponent) (i p : Int)
    (Obj : FMissionObjective) (hat : c.CurrentMission.ObjectiveAt i = some Obj)
    (hT : Obj.TargetCount ≤ 0) :
    (∃ Obj1 : FMissionObjective,
      (c.UpdateObjectiveProgress i p).1.CurrentMission.ObjectiveAt i = some Obj1 ∧
      Obj1.bIsCompleted = true) ∧
    (c.CurrentMission.State = EMissionState.InProgress →
      ((c.UpdateObjectiveProgress i p).1.CurrentMission.State = EMissionState.Completed ↔
        ∀ j : Nat, j ≠ i.toNat → ∀ Other : FMissionObjective,
          c.CurrentMission.Objectives[j]? = some Other → Other.bIsCompleted = true)) := by
  obtain ⟨hi, hget⟩ := (objectiveAt_eq_some _ _ _).1 hat
  have hflag := setObjectiveProgress_completed_of_nonpos p Obj hT
  refine ⟨⟨_, objectiveAt_update c i p Obj hat, hflag⟩, ?_⟩
  intro hs
  rw [update_state_of_valid c i p hi,
    ← areAll_modify_iff (UMissionComponent.SetObjectiveProgress p) _ _ Obj hget hflag]
  by_cases h : FMissionData.AreAllObjectivesCompletedLoop
      (c.CurrentMission.Objectives.modify (UMissionComponent.SetObjectiveProgress p)
        i.toNat) = true
  · simp [h, hs]
  · simp [h, hs]

/-- C17 (witness): on the mission with two objectives of target 0, after objective 0 has
been updated, the update of objective 1 (to -2) sets its flag and completes the mission,
objective 0 being the only other objective. -/
theorem C17_nonpositive_target_update_witness :
    (((UMissionComponent.mk
        (zeroTargetMission EMissionState.InProgress)).UpdateObjectiveProgress
      0 5).1.UpdateObjectiveProgress 1 (-2)).1.CurrentMission.State
        = EMissionState.Completed ∧
    ((∃ Obj1 : FMissionObjective,
      (((UMissionComponent.mk
          (zeroTargetMission EMissionState.InProgress)).UpdateObjectiveProgress
        0 5).1.UpdateObjectiveProgress 1 (-2)).1.CurrentMission.ObjectiveAt 1 = some Obj1 ∧
      Obj1.bIsCompleted = true) ∧
    (((UMissionComponent.mk
          (zeroTargetMission EMissionState.InProgress)).UpdateObjectiveProgress
        0 5).1.CurrentMission.State = EMissionState.InProgress →
      ((((UMissionComponent.mk
          (zeroTargetMission EMissionState.InProgress)).UpdateObjectiveProgress
        0 5).1.UpdateObjectiveProgress 1 (-2)).1.CurrentMission.State
          = EMissionState.Completed ↔
      ∀ j : Nat, j ≠ (1 : Int).toNat → ∀ Other : FMissionObjective,
        ((UMissionComponent.mk
          (zeroTargetMission EMissionState.InProgress)).UpdateObjectiveProgress
            0 5).1.CurrentMission.Objectives[j]? = some Other →
          Other.bIsCompleted = true))) :=
  ⟨by decide,
    C17_nonpositive_target_update
      ((UMissionComponent.mk (zeroTargetMission EMissionState.InProgress)).UpdateObjectiveProgress
        0 5).1 1 (-2) { Description := "Second", CurrentCount := 0, TargetCount := 0 }
      (by decide) (by decide)⟩

/-! ## Objective counts -/

/-- C18: `GetTotalObjectiveCount()` is the length of the objective list and
`GetCompletedObjectiveCount()` is the number of objectives whose flag is set; so
`0 <= GetCompletedObjectiveCount() <= GetTotalObjectiveCount()`, and the two counts are
equal if and only if `AreAllObjectivesCompleted()` is true. -/
theorem C18_objective_counts (m : FMissionData) :
    m.GetTotalObjectiveCount = (m.Objectives.length : Int) ∧
    m.GetCompletedObjectiveCount
      = ((m.Objectives.countP (fun Obj => Obj.bIsCompleted) : Nat) : Int) ∧
    0 ≤ m.GetCompletedObjectiveCount ∧
    m.GetCompletedObjectiveCount ≤ m.GetTotalObjectiveCount ∧
    (m.GetCompletedObjectiveCount = m.GetTotalObjectiveCount ↔
      m.AreAllObjectivesCompleted = true) := by
  have hc : m.GetCompletedObjectiveCount
      = ((m.Objectives.countP (fun Obj => Obj.bIsCompleted) : Nat) : Int) := by
    unfold FMissionData.GetCompletedObjectiveCount
    rw [getCompletedObjectiveCountLoop_eq]
    simp
  have hle : m.Objectives.countP (fun Obj => Obj.bIsCompleted) ≤ m.Objectives.length :=
    List.countP_le_length _
  refine ⟨rfl, hc, ?_, ?_, ?_⟩
  · rw [hc]
    exact Int.ofNat_nonneg _
  · rw [hc]
    unfold FMissionData.GetTotalObjectiveCount
    exact_mod_cast hle
  · rw [hc]
    unfold FMissionData.GetTotalObjectiveCount FMissionData.AreAllObjectivesCompleted
    rw [areAllObjectivesCompletedLoop_iff, Nat.cast_inj, List.countP_eq_length]

/-! ## Repeated updates -/

/-- C19: `UMissionComponent::UpdateObjectiveProgress` is idempotent on the component: for
every mission in any state, every index (valid or not) and every new progress, the
component after two calls with the same arguments equals the component after one. -/
theorem C19_update_idempotent (c : UMissionComponent) (i p : Int) :
    ((c.UpdateObjectiveProgress i p).1.UpdateObjectiveProgress i p).1
      = (c.UpdateObjectiveProgress i p).1 := by
  by_cases hi : TArray.IsValidIndex c.CurrentMission.Objectives i = true
  · have hi1 : TArray.IsValidIndex
        (c.UpdateObjectiveProgress i p).1.CurrentMission.Objectives i = true := by
      rw [update_objectives_of_valid c i p hi]
      rw [isValidIndex_iff] at hi ⊢
      simpa using hi
    rw [update_fst_of_valid _ i p hi1]
    have hmm := modify_modify_same (UMissionComponent.SetObjectiveProgress p)
      (setObjectiveProgress_idem p) c.CurrentMission.Objectives i.toNat
    rw [update_fst_of_valid c i p hi]
    by_cases h : FMissionData.AreAllObjectivesCompletedLoop
        (c.CurrentMission.Objectives.modify (UMissionComponent.SetObjectiveProgress p)
          i.toNat) = true ∧ c.CurrentMission.State = EMissionState.InProgress
    · simp [h, hmm]
    · simp [h, hmm]
  · have hi0 : TArray.IsValidIndex c.CurrentMission.Objectives i = false := by
      simpa using hi
    rw [update_of_invalid c i p hi0]
    simp [update_of_invalid c i p hi0]
